import Mathlib

/-!
Shallow embedding of the call-classification and tiered-repository code of
`fantom-api-graphql` (files `internal/repository/sti.go` and
`internal/repository/sfc_withdraw.go`), together with theorems settling the
spec claims about it.

Modelling conventions:
  * Go byte slices are `List Nat` (each entry standing for a `byte`, reduced
    `% 256` wherever the bit pattern matters); Go `*T` pointers that may be
    nil are `Option T`; Go `(T, error)` returns are `Except String T` or a
    pair with an `Option String` error component, matching how the call site
    consumes them.
  * External collaborators reached through the `proxy` / `repository`
    interface (RPC node, Mongo store, ABI JSON parser) are a record of
    functions `Env`; the repository functions are translated statement by
    statement against that environment.
  * Side effects that matter to the claims (log calls with their severity,
    store queries, cache pushes, RPC pulls, transaction updates) are recorded
    in an explicit `List Effect` returned next to the ordinary result, in
    program order.
-/

/-- A blockchain address (`common.Address`), as its byte sequence
(`addr.Bytes()` in Go). -/
abbrev Address := List Nat

/-- One lowercase hex digit, as produced by Go `encoding/hex` (`hextable`). -/
def hexDigit (n : Nat) : Char :=
  "0123456789abcdef".toList.getD n '0'

/-- Hex expansion of a byte sequence, two lowercase digits per byte, in order
(`hex.EncodeToString`: high nibble first).  The `% 256` makes the `byte`
range explicit. -/
def hexChars : List Nat → List Char
  | [] => []
  | b :: bs => hexDigit (b % 256 / 16) :: hexDigit (b % 16) :: hexChars bs

/-- `hexutil.Bytes.String()` / `hexutil.Encode`: `"0x"` followed by the hex
expansion of the bytes. -/
def hexEncode (bs : List Nat) : String :=
  String.mk ('0' :: 'x' :: hexChars bs)

/-- The expression `trx.InputData.String()[:8]` from
`updateTargetFunctionSignature`: the first 8 bytes of the hex rendering of
the input data (all characters are ASCII, so Go's byte slicing is character
slicing here). -/
def rawCallSig (bs : List Nat) : String :=
  String.mk ((hexEncode bs).toList.take 8)

/-- Lower-casing of one ASCII character, the case folding relevant to the
account-type tags compared by the repository. -/
def asciiLower (c : Char) : Char :=
  if 65 ≤ c.toNat ∧ c.toNat ≤ 90 then Char.ofNat (c.toNat + 32) else c

/-- `strings.EqualFold` restricted to the ASCII strings the repository uses
as account-type tags: case-insensitive equality, character by character. -/
def EqualFold (s t : String) : Bool :=
  s.toList.map asciiLower == t.toList.map asciiLower

/-- Modelled from the spec: `types.AccountTypeContract` (package
`internal/types` is not under `src/`); the generic "contract" classification
used as the fallback target-contract type. -/
def AccountTypeContract : String := "contract"

/-- Modelled from the spec: `types.AccountTypeERC20Token` (package
`internal/types` is not under `src/`); the token-standard account type tag
compared case-insensitively against a contract's stored type. -/
def AccountTypeERC20Token : String := "ERC20"

/-- Modelled from the spec: `contracts.SfcV1ContractABI` (package
`internal/repository/rpc/contracts` is not under `src/`); the legacy SFC v1
interface bundled as a constant ABI document.  Its content is opaque here —
it is only ever interpreted through the environment's ABI parser. -/
def SfcV1ContractABI : String := "sfc-v1-contract-abi-json"

/-- One entry of a parsed ABI: a function with its 4-byte selector
(`method.ID`) and its name (go-ethereum `abi.Method`). -/
structure AbiMethod where
  id : List Nat
  name : String
  deriving DecidableEq, Repr

/-- A parsed contract interface (go-ethereum `abi.ABI`), reduced to the
method table that `MethodById` consults. -/
structure ABI where
  methods : List AbiMethod
  deriving DecidableEq, Repr

/-- Modelled from the go-ethereum dependency: `abi.ABI.MethodById(sigdata)`
fails for input shorter than 4 bytes and otherwise returns the method whose
4-byte selector equals the leading 4 bytes of the input, or a not-found
outcome. -/
def methodById (inAbi : ABI) (sigdata : List Nat) : Option AbiMethod :=
  if sigdata.length < 4 then none
  else inAbi.methods.find? (fun m => m.id == sigdata.take 4)

/-- `types.Transaction`, reduced to the fields the classification pipeline
reads and writes.  Zero values follow Go: pointer fields start nil,
`IsErc20Call` starts false. -/
structure Transaction where
  hash : String
  toAddr : Option Address
  inputData : Option (List Nat)
  targetContractType : Option String := none
  targetFunctionCall : Option String := none
  isErc20Call : Bool := false
  deriving DecidableEq, Repr

/-- `types.Contract`, reduced to the fields `updateTargetFunctionSignature`
reads: the stored ABI document and the contract type tag. -/
structure Contract where
  abi : String
  type : String
  deriving DecidableEq, Repr

/-- `types.Account`, reduced to the `Type` tag copied by
`updateTargetContractType`. -/
structure Account where
  type : String
  deriving DecidableEq, Repr

/-- `types.StakerInfo`, reduced to the `Name` pointer consulted by
`RetrieveStakerInfo`; `new(types.StakerInfo)` is `{}` (nil `Name`). -/
structure StakerInfo where
  name : Option String := none
  deriving DecidableEq, Repr

/-- Modelled from the spec: `types.WithdrawRequestList` is not under `src/`;
the claims treat it as an opaque page of results produced by the persistent
store. -/
structure WithdrawRequestList where
  page : List String
  deriving DecidableEq, Repr

/-- Observable side effects of the repository code, recorded in program
order: leveled log messages and the calls made to external collaborators. -/
inductive Effect where
  | logDebug : String → Effect
  | logError : String → Effect
  | logCritical : String → Effect
  | tryAbi : String → Effect
  | contractLookup : Address → Effect
  | accountLookup : Address → Effect
  | trxUpdate : String → Effect
  | rpcStakerInfo : Nat → Effect
  | cachePushStakerInfo : Nat → Effect
  | dbWithdrawals : Option String → Int → List (String × String) → Effect
  deriving DecidableEq, Repr

/-- The external collaborators the repository code calls into, as pure
functions: the ABI JSON parser, the persistent store's contract/account
lookups, the configured SFC contract address, the RPC staker-info source,
the transaction update write (returning an optional error), and the
withdrawals range query. -/
structure Env where
  parseAbi : String → Option ABI
  contract : Address → Option Contract × Option String
  account : Address → Except String Account
  sfcContract : Address
  rpcStakerInfo : Nat → Except String (Option StakerInfo)
  transactionUpdate : Transaction → Option String
  dbWithdrawals : Option String → Int → List (String × String) →
      Except String WithdrawRequestList

/-- `IsStiContract`: exact byte-equality of the address against the
configured STI contract address (`bytes.Equal(addr.Bytes(), cfg...Bytes())`),
with the configured address passed explicitly. -/
def IsStiContract (stiContract : Address) (addr : Address) : Bool :=
  addr == stiContract

/-- Modelled from the spec: `repo.IsSfcContract` is not under `src/`; per the
spec's contract-identity predicate it is the same exact byte-equality check
as `IsStiContract`, against the configured SFC contract address. -/
def IsSfcContract (env : Env) (addr : Address) : Bool :=
  addr == env.sfcContract

/-- `matchCallMethod`: look the selector up in the parsed ABI; on a miss log
an error and leave the transaction unchanged, on a hit set
`TargetFunctionCall` to the method name. -/
def matchCallMethod (trx : Transaction) (inAbi : ABI) :
    Transaction × List Effect :=
  match methodById inAbi (trx.inputData.getD []) with
  | none => (trx, [.logError "method signature not found"])
  | some m => ({ trx with targetFunctionCall := some m.name }, [])

/-- `tryMatchWithAbi`: parse the ABI document; on parse failure log a debug
message and leave the transaction unchanged, otherwise run
`matchCallMethod`.  The `tryAbi` effect records which document was tried. -/
def tryMatchWithAbi (env : Env) (trx : Transaction) (inAbi : String) :
    Transaction × List Effect :=
  match env.parseAbi inAbi with
  | none => (trx, [.tryAbi inAbi, .logDebug "failed to parse ABI"])
  | some parsed =>
      let r := matchCallMethod trx parsed
      (r.1, .tryAbi inAbi :: r.2)

/-- The first block of `updateTargetFunctionSignature`: when the contract has
any stored ABI, try to match it, then set `IsErc20Call` from the contract
type alone. -/
def storedAbiStep (env : Env) (trx : Transaction) (sc : Contract) :
    Transaction × List Effect :=
  if sc.abi ≠ "" then
    let r := tryMatchWithAbi env trx sc.abi
    ({ r.1 with isErc20Call := EqualFold sc.type AccountTypeERC20Token }, r.2)
  else (trx, [])

/-- `updateTargetFunctionSignature`: stored-ABI step, then the legacy SFC v1
retry when still unmatched and the recipient is the SFC contract, then the
raw-signature fallback when still unmatched. -/
def updateTargetFunctionSignature (env : Env) (trx : Transaction)
    (sc : Contract) : Transaction × List Effect :=
  let s1 := storedAbiStep env trx sc
  let s2 :=
    if s1.1.targetFunctionCall.isNone && IsSfcContract env (trx.toAddr.getD []) then
      let r := tryMatchWithAbi env s1.1 SfcV1ContractABI
      (r.1, s1.2 ++ r.2)
    else s1
  if s2.1.targetFunctionCall.isNone then
    ({ s2.1 with targetFunctionCall := some (rawCallSig (s2.1.inputData.getD [])) },
     s2.2 ++ [.logDebug "call undefined, generic signature used"])
  else s2

/-- `updateTargetContractType`: pull the recipient's account; on error log at
critical severity and fall back to the generic contract type, otherwise copy
the account's type. -/
def updateTargetContractType (env : Env) (trx : Transaction) :
    Transaction × List Effect :=
  match env.account (trx.toAddr.getD []) with
  | .error e =>
      ({ trx with targetContractType := some AccountTypeContract },
       [.accountLookup (trx.toAddr.getD []),
        .logCritical ("contract account not found; " ++ e)])
  | .ok acc =>
      ({ trx with targetContractType := some acc.type },
       [.accountLookup (trx.toAddr.getD [])])

/-- `IsLikelyAContractCall`: the transaction pointer is non-nil, addressed to
a recipient, and carries input data of at least 4 bytes. -/
def IsLikelyAContractCall (otrx : Option Transaction) : Bool :=
  match otrx with
  | none => false
  | some trx =>
      trx.toAddr.isSome && trx.inputData.isSome &&
        decide (4 ≤ (trx.inputData.getD []).length)

/-- `analyzeCall`: drop ineligible transactions with an error log; resolve
the recipient contract (logging a lookup error but continuing, stopping when
the contract is unknown); then classify the target contract type, decode the
function signature, and write the transaction back. -/
def analyzeCall (env : Env) (otrx : Option Transaction) :
    Option Transaction × List Effect :=
  if IsLikelyAContractCall otrx then
    match otrx with
    | none => (none, [])
    | some trx =>
        let toA := trx.toAddr.getD []
        let lookup := env.contract toA
        let e1 : List Effect :=
          .contractLookup toA ::
            (match lookup.2 with
             | some e => [.logError ("can not analyze call; " ++ e)]
             | none => [])
        match lookup.1 with
        | none => (some trx, e1 ++ [.logDebug "recipient not known, probably not a contract call"])
        | some sc =>
            let r1 := updateTargetContractType env trx
            let r2 := updateTargetFunctionSignature env r1.1 sc
            let e4 : List Effect :=
              match env.transactionUpdate r2.1 with
              | some e => [.trxUpdate r2.1.hash, .logError ("transaction not updated; " ++ e)]
              | none => [.trxUpdate r2.1.hash]
            (some r2.1, e1 ++ r1.2 ++ r2.2 ++ e4)
  else
    (otrx, [.logError "analyzer received a non-call transaction"])

/-- The in-memory staker-info cache, as an association list from staker id to
the cached record (BigCache keyed by id). -/
abbrev StakerCache := List (Nat × StakerInfo)

/-- `cache.PullStakerInfo`: look the id up in the in-memory cache, nil on a
miss. -/
def cachePullStakerInfo (c : StakerCache) (id : Nat) : Option StakerInfo :=
  (c.find? (fun p => p.1 == id)).map (fun p => p.2)

/-- `cache.PushStakerInfo`: store the record under the id, replacing any
previous entry. -/
def cachePushStakerInfo (c : StakerCache) (id : Nat) (sti : StakerInfo) :
    StakerCache :=
  (id, sti) :: c.filter (fun p => p.1 != id)

/-- `StoreStakerInfo`: push the record to the in-memory cache (the cache push
is modelled as always succeeding, so the error branch that only logs is not
taken). -/
def StoreStakerInfo (c : StakerCache) (id : Nat) (sti : StakerInfo) :
    StakerCache × List Effect :=
  (cachePushStakerInfo c id sti, [.cachePushStakerInfo id])

/-- `PullStakerInfo`: query the RPC source; propagate its error; when the
source reports no record, fabricate `new(types.StakerInfo)` and store it in
the cache; return the record. -/
def PullStakerInfo (env : Env) (c : StakerCache) (id : Nat) :
    Except String StakerInfo × StakerCache × List Effect :=
  match env.rpcStakerInfo id with
  | .error e => (.error e, c, [.rpcStakerInfo id])
  | .ok (some info) => (.ok info, c, [.rpcStakerInfo id])
  | .ok none =>
      let info : StakerInfo := {}
      let stored := StoreStakerInfo c id info
      (.ok info, stored.1, .rpcStakerInfo id :: stored.2)

/-- `RetrieveStakerInfo`: return the cached record on a cache hit.  On a
miss, Go runs `if info, err := p.PullStakerInfo(id); err != nil || info.Name
== nil { return nil }` — the `info` bound by the `if` SHADOWS the outer
`info`, so the trailing `return info` returns the outer value, which is nil
in this branch whatever the pull produced; both arms below are therefore
`none`, mirroring the source. -/
def RetrieveStakerInfo (env : Env) (c : StakerCache) (id : Nat) :
    Option StakerInfo × StakerCache × List Effect :=
  match cachePullStakerInfo c id with
  | some info => (some info, c, [])
  | none =>
      match PullStakerInfo env c id with
      | (.error _, c2, effs) => (none, c2, effs)
      | (.ok info, c2, effs) =>
          if info.name = none then (none, c2, effs)
          else (none, c2, effs)

/-- `common.Address.String()`, reduced to the plain hex rendering (the EIP-55
checksum casing is irrelevant to the claims: the rendering is only passed
through to the store filter). -/
def addressString (addr : Address) : String :=
  hexEncode addr

/-- `hexutil.Big.String()`: `"0x"` followed by the hex digits of the
number. -/
def bigString (n : Nat) : String :=
  "0x" ++ String.mk (Nat.toDigits 16 n)

/-- `WithdrawRequests`: a single persistent-store range query, filtered by
the delegator address alone when no staker id is given, and by the address
and the staker id when one is given; cursor and count are passed through
unchanged. -/
def WithdrawRequests (env : Env) (addr : Address) (stakerID : Option Nat)
    (cursor : Option String) (count : Int) :
    Except String WithdrawRequestList × List Effect :=
  match stakerID with
  | none =>
      let filter := [("addr", addressString addr)]
      (env.dbWithdrawals cursor count filter,
       [.logDebug "loading withdraw requests to any validator",
        .dbWithdrawals cursor count filter])
  | some sid =>
      let filter := [("addr", addressString addr), ("to", bigString sid)]
      (env.dbWithdrawals cursor count filter,
       [.logDebug "loading withdraw requests to a specific validator",
        .dbWithdrawals cursor count filter])

/-! Concrete fixtures used by counterexamples and witnesses: a parsed ABI
with no methods, a parsed legacy SFC v1 interface owning the `0xdeadbeef`
selector, an eligible transaction carrying that selector, and environments
differing only where a claim needs them to. -/

/-- An ABI document that parses to an interface with no functions. -/
def emptyAbi : ABI := { methods := [] }

/-- A parsed legacy SFC v1 interface owning the `0xdeadbeef` selector. -/
def sfcV1Parsed : ABI :=
  { methods := [{ id := [222, 173, 190, 239], name := "withdraw" }] }

/-- An eligible transaction: recipient `[171]`, input data `0xdeadbeef`. -/
def trxCall : Transaction :=
  { hash := "0xtrx", toAddr := some [171], inputData := some [222, 173, 190, 239] }

/-- A baseline environment: every ABI document parses to `emptyAbi`, the
recipient resolves to a known plain-wallet contract, accounts resolve, the
SFC contract lives at `[252]`, and the staker-info source returns a usable
record with a non-nil name. -/
def envPlain : Env :=
  { parseAbi := fun _ => some emptyAbi
    contract := fun _ => (some { abi := "", type := "wallet" }, none)
    account := fun _ => .ok { type := "wallet" }
    sfcContract := [252]
    rpcStakerInfo := fun _ => .ok (some { name := some "Validator" })
    transactionUpdate := fun _ => none
    dbWithdrawals := fun _ _ _ => .ok { page := [] } }

/-- `envPlain` with a failing account lookup. -/
def envAccountErr : Env :=
  { envPlain with account := fun _ => .error "not found" }

/-- `envPlain` with an ABI parser that only understands the legacy SFC v1
document, yielding `sfcV1Parsed` for it. -/
def envLegacy : Env :=
  { envPlain with
      parseAbi := fun d => if d = SfcV1ContractABI then some sfcV1Parsed else none }

/-- A transaction addressed to the configured SFC contract `[252]`, carrying
the `0xdeadbeef` selector. -/
def trxToSfc : Transaction :=
  { hash := "0xsfc", toAddr := some [252], inputData := some [222, 173, 190, 239] }

/-- Follows the spec's words (for comparison with `WithdrawRequests`): the
store filter is the delegator address alone, or the address together with
the staker id when one is supplied. -/
def specWithdrawFilter (addr : Address) (stakerID : Option Nat) :
    List (String × String) :=
  match stakerID with
  | none => [("addr", addressString addr)]
  | some sid => [("addr", addressString addr), ("to", bigString sid)]

/-- Selects the persistent-store query effects, for counting how many store
queries an operation issued. -/
def isStoreQuery : Effect → Bool
  | .dbWithdrawals _ _ _ => true
  | _ => false

/-! Helper lemmas about the shape of the matcher steps, shared by several
claim theorems. -/

theorem hexChars_length (bs : List Nat) : (hexChars bs).length = 2 * bs.length := by
  induction bs with
  | nil => rfl
  | cons b bs ih => simp [hexChars, ih]; omega

theorem tryMatchWithAbi_spec (env : Env) (t : Transaction) (a : String) :
    (tryMatchWithAbi env t a).1 = t ∨
    ∃ A m, env.parseAbi a = some A ∧
      methodById A (t.inputData.getD []) = some m ∧
      (tryMatchWithAbi env t a).1 = { t with targetFunctionCall := some m.name } := by
  unfold tryMatchWithAbi matchCallMethod
  cases h : env.parseAbi a with
  | none => left; rfl
  | some A =>
      cases h2 : methodById A (t.inputData.getD []) with
      | none => left; simp [h2]
      | some m =>
          right
          refine ⟨A, m, ?_, ?_, ?_⟩
          · rfl
          · exact h2
          · simp [h2]

theorem tryMatchWithAbi_isErc20Call (env : Env) (t : Transaction) (a : String) :
    (tryMatchWithAbi env t a).1.isErc20Call = t.isErc20Call := by
  rcases tryMatchWithAbi_spec env t a with h | ⟨A, m, _, _, h⟩ <;> rw [h]

theorem tryMatchWithAbi_inputData (env : Env) (t : Transaction) (a : String) :
    (tryMatchWithAbi env t a).1.inputData = t.inputData := by
  rcases tryMatchWithAbi_spec env t a with h | ⟨A, m, _, _, h⟩ <;> rw [h]

theorem tryMatchWithAbi_tried (env : Env) (t : Transaction) (a : String) :
    Effect.tryAbi a ∈ (tryMatchWithAbi env t a).2 := by
  unfold tryMatchWithAbi
  cases h : env.parseAbi a <;> simp

theorem tryMatchWithAbi_effects (env : Env) (t : Transaction) (a : String)
    (x : Effect) (hx : x ∈ (tryMatchWithAbi env t a).2) :
    x = .tryAbi a ∨ x = .logDebug "failed to parse ABI" ∨
      x = .logError "method signature not found" := by
  unfold tryMatchWithAbi matchCallMethod at hx
  cases h : env.parseAbi a with
  | none => simp [h] at hx; tauto
  | some A =>
      cases h2 : methodById A (t.inputData.getD []) with
      | none => simp [h, h2] at hx; tauto
      | some m => simp [h, h2] at hx; tauto

theorem storedAbiStep_isErc20Call (env : Env) (trx : Transaction) (sc : Contract) :
    (storedAbiStep env trx sc).1.isErc20Call =
      if sc.abi ≠ "" then EqualFold sc.type AccountTypeERC20Token
      else trx.isErc20Call := by
  unfold storedAbiStep
  split <;> simp

theorem storedAbiStep_inputData (env : Env) (trx : Transaction) (sc : Contract) :
    (storedAbiStep env trx sc).1.inputData = trx.inputData := by
  unfold storedAbiStep
  split
  · simpa using tryMatchWithAbi_inputData env trx sc.abi
  · rfl

theorem storedAbiStep_effects (env : Env) (trx : Transaction) (sc : Contract)
    (x : Effect) (hx : x ∈ (storedAbiStep env trx sc).2) :
    x = .tryAbi sc.abi ∨ x = .logDebug "failed to parse ABI" ∨
      x = .logError "method signature not found" := by
  unfold storedAbiStep at hx
  split at hx
  · exact tryMatchWithAbi_effects env trx sc.abi x hx
  · simp at hx

theorem updateTargetFunctionSignature_isErc20Call (env : Env) (trx : Transaction)
    (sc : Contract) :
    (updateTargetFunctionSignature env trx sc).1.isErc20Call =
      (storedAbiStep env trx sc).1.isErc20Call := by
  unfold updateTargetFunctionSignature
  dsimp only
  split <;> split <;> simp [tryMatchWithAbi_isErc20Call]

theorem updateTargetFunctionSignature_isSome (env : Env) (trx : Transaction)
    (sc : Contract) :
    (updateTargetFunctionSignature env trx sc).1.targetFunctionCall.isSome = true := by
  unfold updateTargetFunctionSignature
  dsimp only
  split <;> split <;>
    simp_all [Option.isNone_iff_eq_none, Option.isSome_iff_ne_none]

/-- C1, counterexample: for the eligible transaction `trxCall` sent to a
contract whose stored ABI parses to an interface with no functions and whose
type case-insensitively matches the ERC-20 token type, no selector match is
found (the raw fallback fires), yet `isErc20Call` ends up true — refuting
"it is never true when no selector match was found". -/
theorem c1_erc20_flag_without_match :
    (updateTargetFunctionSignature envPlain trxCall
        { abi := "erc20-abi-doc", type := "erc20" }).1.isErc20Call = true
  ∧ envPlain.parseAbi "erc20-abi-doc" = some emptyAbi
  ∧ methodById emptyAbi [222, 173, 190, 239] = none
  ∧ (updateTargetFunctionSignature envPlain trxCall
        { abi := "erc20-abi-doc", type := "erc20" }).1.targetFunctionCall =
      some (rawCallSig [222, 173, 190, 239]) := by
  refine ⟨by decide, by rfl, by decide, by decide⟩

/-- C1, amended: `isErc20Call` is set to whether the contract's type
case-insensitively matches the ERC-20 token-standard type whenever the
contract has a non-empty stored ABI, irrespective of whether any selector
match succeeded; when the stored ABI is empty the flag is left unchanged. -/
theorem c1_amended_erc20_flag_from_type_alone (env : Env) (trx : Transaction)
    (sc : Contract) :
    (updateTargetFunctionSignature env trx sc).1.isErc20Call =
      if sc.abi ≠ "" then EqualFold sc.type AccountTypeERC20Token
      else trx.isErc20Call := by
  rw [updateTargetFunctionSignature_isErc20Call, storedAbiStep_isErc20Call]

/-- C2: for the eligible transaction `trxCall` (input data `0xdeadbeef`)
resolving to a known contract with no stored-ABI match and no legacy match,
the code records the first 8 characters of the `0x`-prefixed hex rendering,
i.e. `"0xdeadbe"` — the prefix plus only 3 selector bytes — not the
8-hex-character selector `"deadbeef"` the claim states. -/
theorem c2_raw_fallback_records_prefixed_truncated_selector :
    (updateTargetFunctionSignature envPlain trxCall
        { abi := "", type := "wallet" }).1.targetFunctionCall = some "0xdeadbe"
  ∧ rawCallSig [222, 173, 190, 239] = "0xdeadbe"
  ∧ "0xdeadbe" ≠ "deadbeef" := by
  refine ⟨by decide, by decide, by decide⟩

/-- C3: under `envPlain` the authoritative source returns a usable record for
staker 1, the successful pull does not push anything into the cache, the
first cache-missing `Retrieve` leaves the cache empty, and the second
`Retrieve` for the same id invokes the authoritative source again — refuting
both the unconditional cache push and the absorbed second lookup. -/
theorem c3_second_retrieve_hits_source_again :
    envPlain.rpcStakerInfo 1 = .ok (some { name := some "Validator" })
  ∧ (PullStakerInfo envPlain [] 1).2.1 = []
  ∧ Effect.cachePushStakerInfo 1 ∉ (PullStakerInfo envPlain [] 1).2.2
  ∧ (RetrieveStakerInfo envPlain [] 1).2.1 = []
  ∧ Effect.rpcStakerInfo 1 ∈
      (RetrieveStakerInfo envPlain ((RetrieveStakerInfo envPlain [] 1).2.1) 1).2.2 := by
  refine ⟨by rfl, by decide, by decide, by decide, by decide⟩

/-- C4: whenever the id is absent from the in-memory cache,
`RetrieveStakerInfo` returns nil — the record pulled from the source is
bound to a shadowing local and never returned, so every path of the
cache-miss branch yields nil. -/
theorem c4_retrieve_cache_miss_returns_nil (env : Env) (c : StakerCache)
    (id : Nat) (h : cachePullStakerInfo c id = none) :
    (RetrieveStakerInfo env c id).1 = none := by
  unfold RetrieveStakerInfo
  rw [h]
  rcases hp : PullStakerInfo env c id with ⟨r, c2, effs⟩
  cases r with
  | error e => simp
  | ok info => dsimp only; split <;> rfl

/-- C4, witness: staker 1 is absent from the empty cache, the source pull
under `envPlain` succeeds with a record whose name is non-nil, and
`RetrieveStakerInfo` still returns nil. -/
theorem c4_witness :
    cachePullStakerInfo [] 1 = none
  ∧ envPlain.rpcStakerInfo 1 = .ok (some { name := some "Validator" })
  ∧ (RetrieveStakerInfo envPlain [] 1).1 = none :=
  ⟨by decide, by rfl, c4_retrieve_cache_miss_returns_nil envPlain [] 1 (by decide)⟩

/-- C10: for every transaction passing the eligibility check, the
`0x`-prefixed hex rendering of its input data has at least 10 characters, so
taking the first 8 characters is within bounds (yields exactly 8
characters) and the raw-fallback expression cannot panic. -/
theorem c10_raw_fallback_in_bounds (trx : Transaction)
    (h : IsLikelyAContractCall (some trx) = true) :
    10 ≤ (hexEncode (trx.inputData.getD [])).toList.length
  ∧ ((hexEncode (trx.inputData.getD [])).toList.take 8).length = 8
  ∧ rawCallSig (trx.inputData.getD []) =
      String.mk ((hexEncode (trx.inputData.getD [])).toList.take 8) := by
  have h4 : 4 ≤ (trx.inputData.getD []).length := by
    unfold IsLikelyAContractCall at h
    simp only [Bool.and_eq_true, decide_eq_true_eq] at h
    exact h.2
  have hlen : (hexEncode (trx.inputData.getD [])).toList.length =
      2 + 2 * (trx.inputData.getD []).length := by
    show ('0' :: 'x' :: hexChars (trx.inputData.getD [])).length = _
    simp [hexChars_length]
    omega
  refine ⟨?_, ?_, rfl⟩
  · rw [hlen]; omega
  · rw [List.length_take, hlen]; omega

/-- C10, witness: the eligible transaction `trxCall` (4 bytes of input
data): its hex rendering has at least 10 characters and the 8-character
slice is full length. -/
theorem c10_witness :
    IsLikelyAContractCall (some trxCall) = true
  ∧ (10 ≤ (hexEncode (trxCall.inputData.getD [])).toList.length
      ∧ ((hexEncode (trxCall.inputData.getD [])).toList.take 8).length = 8
      ∧ rawCallSig (trxCall.inputData.getD []) =
          String.mk ((hexEncode (trxCall.inputData.getD [])).toList.take 8)) :=
  ⟨by decide, c10_raw_fallback_in_bounds trxCall (by decide)⟩

/-- C5: for every eligible transaction whose recipient resolves to a known
contract, the transaction coming out of `analyzeCall` exists and carries a
non-nil `targetFunctionCall` (set by the stored-ABI match, the legacy
fallback, or the raw 4-byte fallback). -/
theorem c5_target_function_call_always_set (env : Env) (trx : Transaction)
    (sc : Contract) (errOpt : Option String)
    (h1 : IsLikelyAContractCall (some trx) = true)
    (h2 : env.contract (trx.toAddr.getD []) = (some sc, errOpt)) :
    ((analyzeCall env (some trx)).1.bind
        (fun t => t.targetFunctionCall)).isSome = true := by
  unfold analyzeCall
  rw [h1]
  dsimp only
  rw [h2]
  dsimp only
  exact updateTargetFunctionSignature_isSome env (updateTargetContractType env trx).1 sc

/-- C5, witness: the eligible transaction `trxCall` under `envPlain`, whose
recipient resolves to a known contract, comes out of `analyzeCall` with a
non-nil `targetFunctionCall`. -/
theorem c5_witness :
    IsLikelyAContractCall (some trxCall) = true
  ∧ envPlain.contract (trxCall.toAddr.getD []) =
      (some { abi := "", type := "wallet" }, none)
  ∧ ((analyzeCall envPlain (some trxCall)).1.bind
        (fun t => t.targetFunctionCall)).isSome = true :=
  ⟨by decide, by rfl,
   c5_target_function_call_always_set envPlain trxCall
     { abi := "", type := "wallet" } none (by decide) (by rfl)⟩

/-- C6: `IsLikelyAContractCall` holds exactly of a non-nil transaction with a
non-nil recipient and non-nil input data of length at least 4; and on every
transaction failing the check, `analyzeCall` returns the transaction with
every field unchanged and performs nothing beyond the one error log — in
particular no repository update. -/
theorem c6_eligibility_and_frame (env : Env) (otrx : Option Transaction) :
    (IsLikelyAContractCall otrx = true ↔
      ∃ trx, otrx = some trx ∧ trx.toAddr.isSome = true ∧
        trx.inputData.isSome = true ∧ 4 ≤ (trx.inputData.getD []).length)
  ∧ (IsLikelyAContractCall otrx = false →
      analyzeCall env otrx =
        (otrx, [Effect.logError "analyzer received a non-call transaction"])) := by
  constructor
  · cases otrx <;> simp [IsLikelyAContractCall, and_assoc]
  · intro h
    unfold analyzeCall
    rw [h]
    simp

/-- C6, witness: the nil transaction fails the check and `analyzeCall`
returns it unchanged with only the error log. -/
theorem c6_witness :
    IsLikelyAContractCall none = false
  ∧ analyzeCall envPlain none =
      (none, [Effect.logError "analyzer received a non-call transaction"]) :=
  ⟨by decide, (c6_eligibility_and_frame envPlain none).2 (by decide)⟩

/-- C7: when the recipient's account lookup succeeds,
`updateTargetContractType` copies the account's type (and only logs the
lookup); when it fails, it logs at critical severity and falls back to the
generic contract type; `targetContractType` is non-nil in both cases. -/
theorem c7_target_contract_type (env : Env) (trx : Transaction) :
    (∀ acc, env.account (trx.toAddr.getD []) = .ok acc →
      updateTargetContractType env trx =
        ({ trx with targetContractType := some acc.type },
         [Effect.accountLookup (trx.toAddr.getD [])]))
  ∧ (∀ e, env.account (trx.toAddr.getD []) = .error e →
      updateTargetContractType env trx =
        ({ trx with targetContractType := some AccountTypeContract },
         [Effect.accountLookup (trx.toAddr.getD []),
          Effect.logCritical ("contract account not found; " ++ e)]))
  ∧ (updateTargetContractType env trx).1.targetContractType.isSome = true := by
  refine ⟨?_, ?_, ?_⟩
  · intro acc hacc
    unfold updateTargetContractType
    rw [hacc]
  · intro e he
    unfold updateTargetContractType
    rw [he]
  · unfold updateTargetContractType
    cases env.account (trx.toAddr.getD []) <;> simp

/-- C7, witness: a succeeding lookup copies the account type `"wallet"`; a
failing lookup yields the generic contract type and a critical log. -/
theorem c7_witness :
    (updateTargetContractType envPlain trxCall).1.targetContractType = some "wallet"
  ∧ (updateTargetContractType envAccountErr trxCall).1.targetContractType =
      some AccountTypeContract
  ∧ Effect.logCritical ("contract account not found; " ++ "not found") ∈
      (updateTargetContractType envAccountErr trxCall).2 := by
  have h1 := (c7_target_contract_type envPlain trxCall).1 { type := "wallet" } (by rfl)
  have h2 := (c7_target_contract_type envAccountErr trxCall).2.1 "not found" (by rfl)
  refine ⟨?_, ?_, ?_⟩
  · rw [h1]
  · rw [h2]
  · rw [h2]; simp

/-- C9: `WithdrawRequests` issues exactly one persistent-store query — its
effect trace restricted to store queries is a single query — filtered by the
delegator address alone when no staker id is supplied and by the address
together with the staker id when one is, with cursor and count passed
through unchanged; the store's answer is returned as is. -/
theorem c9_withdraw_requests_single_query (env : Env) (addr : Address)
    (stakerID : Option Nat) (cursor : Option String) (count : Int) :
    (WithdrawRequests env addr stakerID cursor count).1 =
      env.dbWithdrawals cursor count (specWithdrawFilter addr stakerID)
  ∧ (WithdrawRequests env addr stakerID cursor count).2.filter isStoreQuery =
      [Effect.dbWithdrawals cursor count (specWithdrawFilter addr stakerID)] := by
  cases stakerID <;>
    simp [WithdrawRequests, specWithdrawFilter, isStoreQuery, List.filter]

theorem updateTFS_effects_legacy (env : Env) (trx : Transaction) (sc : Contract)
    (hguard : ((storedAbiStep env trx sc).1.targetFunctionCall.isNone &&
        IsSfcContract env (trx.toAddr.getD [])) = true) :
    Effect.tryAbi SfcV1ContractABI ∈ (updateTargetFunctionSignature env trx sc).2 := by
  have hmem := tryMatchWithAbi_tried env (storedAbiStep env trx sc).1 SfcV1ContractABI
  unfold updateTargetFunctionSignature
  dsimp only
  rw [if_pos hguard]
  split <;> simp [hmem]

theorem updateTFS_effects_no_legacy (env : Env) (trx : Transaction) (sc : Contract)
    (hguard : ((storedAbiStep env trx sc).1.targetFunctionCall.isNone &&
        IsSfcContract env (trx.toAddr.getD [])) = false)
    (x : Effect) (hx : x ∈ (updateTargetFunctionSignature env trx sc).2) :
    x ∈ (storedAbiStep env trx sc).2 ∨
      x = Effect.logDebug "call undefined, generic signature used" := by
  unfold updateTargetFunctionSignature at hx
  dsimp only at hx
  split at hx <;> split at hx <;>
    solve
      | (exfalso; simp_all)
      | (simp only [List.mem_append, List.mem_singleton] at hx; tauto)
      | (left; exact hx)

theorem updateTFS_result_legacy_match (env : Env) (trx : Transaction) (sc : Contract)
    (A : ABI) (m : AbiMethod)
    (hguard : ((storedAbiStep env trx sc).1.targetFunctionCall.isNone &&
        IsSfcContract env (trx.toAddr.getD [])) = true)
    (hA : env.parseAbi SfcV1ContractABI = some A)
    (hm : methodById A (trx.inputData.getD []) = some m) :
    (updateTargetFunctionSignature env trx sc).1.targetFunctionCall = some m.name := by
  have hleg : (tryMatchWithAbi env (storedAbiStep env trx sc).1 SfcV1ContractABI).1 =
      { (storedAbiStep env trx sc).1 with targetFunctionCall := some m.name } := by
    unfold tryMatchWithAbi matchCallMethod
    rw [hA]
    dsimp only
    rw [storedAbiStep_inputData, hm]
  unfold updateTargetFunctionSignature
  dsimp only
  rw [if_pos hguard]
  rw [hleg]
  simp

/-- C8: on a transaction entering analysis with no decoded call yet, the
legacy SFC v1 interface is tried (its document handed to the ABI matcher)
exactly when the stored-ABI step produced no selector match and the
recipient is the configured SFC contract; a successful legacy match sets
`targetFunctionCall` to the matched name while `isErc20Call` stays false
(the contract's type not being the token-standard type). -/
theorem c8_legacy_sfc_fallback (env : Env) (trx : Transaction) (sc : Contract)
    (hNone : trx.targetFunctionCall = none)
    (hAbiNe : sc.abi ≠ SfcV1ContractABI)
    (hType : EqualFold sc.type AccountTypeERC20Token = false)
    (hFlag : trx.isErc20Call = false) :
    (Effect.tryAbi SfcV1ContractABI ∈ (updateTargetFunctionSignature env trx sc).2 ↔
      ((storedAbiStep env trx sc).1.targetFunctionCall = none ∧
        IsSfcContract env (trx.toAddr.getD []) = true))
  ∧ (updateTargetFunctionSignature env trx sc).1.isErc20Call = false
  ∧ (∀ A m, env.parseAbi SfcV1ContractABI = some A →
      methodById A (trx.inputData.getD []) = some m →
      (storedAbiStep env trx sc).1.targetFunctionCall = none →
      IsSfcContract env (trx.toAddr.getD []) = true →
      (updateTargetFunctionSignature env trx sc).1.targetFunctionCall = some m.name) := by
  have hflag : (updateTargetFunctionSignature env trx sc).1.isErc20Call = false := by
    rw [updateTargetFunctionSignature_isErc20Call, storedAbiStep_isErc20Call]
    split
    · exact hType
    · exact hFlag
  refine ⟨?_, hflag, ?_⟩
  · constructor
    · intro hmem
      by_cases hguard : ((storedAbiStep env trx sc).1.targetFunctionCall.isNone &&
          IsSfcContract env (trx.toAddr.getD [])) = true
      · rw [Bool.and_eq_true] at hguard
        exact ⟨Option.isNone_iff_eq_none.mp hguard.1, hguard.2⟩
      · exfalso
        rw [Bool.not_eq_true] at hguard
        rcases updateTFS_effects_no_legacy env trx sc hguard _ hmem with hin | heq
        · rcases storedAbiStep_effects env trx sc _ hin with h1 | h1 | h1 <;> simp at h1
          exact hAbiNe h1.symm
        · simp at heq
    · intro hrhs
      apply updateTFS_effects_legacy
      rw [Bool.and_eq_true]
      exact ⟨Option.isNone_iff_eq_none.mpr hrhs.1, hrhs.2⟩
  · intro A m hA hm hS hSfc
    apply updateTFS_result_legacy_match env trx sc A m ?_ hA hm
    rw [Bool.and_eq_true]
    exact ⟨Option.isNone_iff_eq_none.mpr hS, hSfc⟩

/-- C8, witness: a transaction to the configured SFC contract carrying the
selector owned only by the legacy interface — the stored ABI is empty, the
legacy match succeeds, `targetFunctionCall` becomes `"withdraw"` and
`isErc20Call` stays false. -/
theorem c8_witness :
    trxToSfc.targetFunctionCall = none
  ∧ EqualFold "sfc" AccountTypeERC20Token = false
  ∧ IsSfcContract envLegacy (trxToSfc.toAddr.getD []) = true
  ∧ (updateTargetFunctionSignature envLegacy trxToSfc
        { abi := "", type := "sfc" }).1.targetFunctionCall = some "withdraw"
  ∧ (updateTargetFunctionSignature envLegacy trxToSfc
        { abi := "", type := "sfc" }).1.isErc20Call = false := by
  have H := c8_legacy_sfc_fallback envLegacy trxToSfc { abi := "", type := "sfc" }
    (by rfl) (by decide) (by decide) (by rfl)
  refine ⟨by rfl, by decide, by decide, ?_, H.2.1⟩
  exact H.2.2 sfcV1Parsed { id := [222, 173, 190, 239], name := "withdraw" }
    (by decide) (by decide) (by decide) (by decide)
